import Mathlib

/-!
Verification development for the replication parts of this repository.

The definitions below are shallow embeddings of the TypeScript sources:

* `src/plugins/replication-websocket/websocket-server.ts` (the websocket
  replication server: `startSocketServer`, `startWebsocketServer`,
  `getReplicationHandler` and the per-connection message handler), together
  with the compiled JavaScript artifact of the same module;
* the LokiJS storage helper module (`getLokiSortComparator`,
  `mustUseLocalState`, `requestRemoteInstance`);
* the Dexie.js query runner (`dexieQuery`).

Asynchronous JavaScript is embedded by explicit state passing: promise
races, broadcast-channel traffic and observable subscriptions become
explicit parameters or fields of a state record, and each nondeterministic
outcome of the environment (which promise of a race settles first, which
events a stream emits) is an explicit input of the corresponding function.
Functions of the repository that are only imported by the sources at hand
(they live in modules that are not part of the excerpt) are modelled from
the specification; each such definition carries a doc comment that says so.
-/

/-! ### JavaScript primitive values -/

/-- JavaScript primitive values as they occur in the modelled code paths:
`undefined`, `null`, booleans, numbers and strings. Numbers are modelled as
integers; the modelled code paths never produce `NaN` or fractional values. -/
inductive JsValue
  | undefined
  | null
  | bool (b : Bool)
  | num (n : Int)
  | str (s : String)
deriving DecidableEq, BEq, Repr, Inhabited

/-- JS strict equality `===` on primitive values: equal kind and equal
payload. -/
def jsStrictEq (a b : JsValue) : Bool :=
  a = b

/-- JS `ToNumber` coercion on the primitive values of the modelled code
paths. String-to-number coercion is not modelled (the sort fields of a
schema have a single declared type, so the comparator never compares a
string against a number in the modelled repository). `undefined` coerces to
`NaN`, rendered here as `none`. -/
def jsToNumber : JsValue → Option Int
  | .undefined => none
  | .null => some 0
  | .bool b => some (if b then 1 else 0)
  | .num n => some n
  | .str _ => none

/-- JS relational `>`: strings compare lexicographically, anything else
goes through `ToNumber`, and any comparison involving `NaN` is false. -/
def jsGt : JsValue → JsValue → Bool
  | .str a, .str b => decide (b < a)
  | a, b =>
    match jsToNumber a, jsToNumber b with
    | some x, some y => decide (y < x)
    | _, _ => false

/-- A JavaScript `Promise` as a first-class value. As an object it is
always truthy, regardless of the boolean it resolves to; this distinction
is what separates the TypeScript message handler from the compiled
JavaScript one. -/
structure JsPromise (α : Type) where
  resolvesTo : α
deriving DecidableEq

/-- JS truthiness of a `Promise` object: objects are always truthy. -/
def jsPromiseTruthy {α : Type} (_p : JsPromise α) : Bool :=
  true

/-! ### Websocket replication server: data model -/

/-- Conflict outcome of an injected conflict handler, from the data model
of the spec: one of Equal, Resolved(document), Unresolvable. -/
inductive RxConflictOutcome
  | isEqual
  | resolved (doc : JsValue)
  | unresolvable

/-- The injected conflict policy: given masterState, forkState and
assumedMasterState (which may be absent), decide the outcome. It is a pure
function of its three inputs. -/
def RxConflictHandler : Type :=
  JsValue → JsValue → Option JsValue → RxConflictOutcome

/-- The part of an RxCollection the websocket server reads: its storage
instance (its documents, opaque to the server) and its injected conflict
handler. -/
structure RxCollectionModel where
  storageInstance : List JsValue
  conflictHandler : RxConflictHandler

/-- A hook registered on `database.onDestroy`. The websocket server pushes
exactly one kind of hook: closing its server state. -/
inductive DestroyHook
  | closeServerState
deriving DecidableEq

/-- The part of an RxDatabase the websocket server reads: its named
collections, its token, and the `onDestroy` hook list. -/
structure RxDatabaseModel where
  collections : List (String × RxCollectionModel)
  token : String
  onDestroy : List DestroyHook

/-- A replication handler as handed to the websocket server: the master
handler interface of the spec. `masterChangesSince` and `masterWrite` are
its function-valued members (uniformly receiving the params array of the
request); `masterChangeStream$` is its only non-function member and is
modelled by the `streamEmit` events of the connection state machine below.
The injected conflict handler is retained so that the policy the handler
was built from stays observable. -/
structure RxReplicationHandler where
  masterChangesSince : List JsValue → JsValue
  masterWrite : List JsValue → JsValue
  conflictHandler : RxConflictHandler

/-- Modelled from the spec: `rxStorageInstanceToReplicationHandler` of
`replication-protocol/index.ts` is not part of the excerpt. Per the spec
(§6) it wraps a storage instance and the injected conflict handler into a
Master Handler with pull (`masterChangesSince`), push (`masterWrite`) and a
live change stream; it is a deterministic function of the storage
instance, the conflict handler and the database token. The pull and push
members here return opaque acknowledgements; the claims under verification
never inspect them. -/
def rxStorageInstanceToReplicationHandler
    (storageInstance : List JsValue) (conflictHandler : RxConflictHandler)
    (databaseToken : String) : RxReplicationHandler :=
  { masterChangesSince := fun _ =>
      .str ("changes-since:" ++ databaseToken ++ ":" ++ toString storageInstance.length)
    masterWrite := fun rows =>
      .str ("write-ack:" ++ databaseToken ++ ":" ++ toString rows.length)
    conflictHandler := conflictHandler }

/-- Modelled from the spec: `getFromMapOrCreate` of `plugins/utils` is not
part of the excerpt. It returns the value stored under the key when the
map already holds one, and otherwise invokes the creator once, stores the
created value under the key and returns it. The map is embedded as an
association list threaded through the call. -/
def getFromMapOrCreate {α : Type} (map : List (String × α)) (key : String)
    (create : Unit → α) : α × List (String × α) :=
  match map.lookup key with
  | some v => (v, map)
  | none =>
    let v := create ()
    (v, (key, v) :: map)

/-- Embedding of `getReplicationHandler` of `websocket-server.ts`: throw
when the collection does not exist in `database.collections`; otherwise
look the handler up in `replicationHandlerByCollection` (threaded here as
an association list), creating it from the collection on a miss. -/
def getReplicationHandler (database : RxDatabaseModel)
    (replicationHandlerByCollection : List (String × RxReplicationHandler))
    (collectionName : String) :
    Except String (RxReplicationHandler × List (String × RxReplicationHandler)) :=
  match database.collections.lookup collectionName with
  | none => .error ("collection " ++ collectionName ++ " does not exist")
  | some collection =>
    .ok (getFromMapOrCreate replicationHandlerByCollection collectionName
      (fun _ => rxStorageInstanceToReplicationHandler
        collection.storageInstance collection.conflictHandler database.token))

/-- The handler a given database yields for a given collection name, when
the name exists. -/
def handlerFor (database : RxDatabaseModel) (collectionName : String) :
    Option RxReplicationHandler :=
  (database.collections.lookup collectionName).map
    (fun c => rxStorageInstanceToReplicationHandler
      c.storageInstance c.conflictHandler database.token)

/-! ### Websocket replication server: the per-connection message handler -/

/-- The request object of a connection, opaque to the server except as an
argument to `collectionRules`. -/
def HttpRequest : Type :=
  String

/-- The `collectionRules` policy of `WebsocketServerOptions`: an optional
async predicate over the request and the collection name, hence returning
a `Promise` of a boolean. -/
def CollectionRules : Type :=
  HttpRequest → String → JsPromise Bool

/-- An incoming client message (`WebsocketMessageType`). -/
structure WebsocketMessageType where
  id : String
  collection : String
  method : String
  params : List JsValue

/-- An outgoing response (`WebsocketMessageResponseType`). -/
structure WebsocketMessageResponseType where
  id : String
  collection : String
  result : JsValue
deriving DecidableEq

/-- Member lookup `handler[message.method]` on a replication handler:
either a function member or a non-function value (the
`masterChangeStream$` observable, or `undefined` for any other name). -/
inductive HandlerMember
  | func (f : List JsValue → JsValue)
  | nonFunc

/-- The members of a replication handler by name. `masterChangesSince` and
`masterWrite` are its functions; every other name, in particular
`masterChangeStream$`, is not a function. -/
def handlerMember (handler : RxReplicationHandler) (name : String) : HandlerMember :=
  if name = "masterChangesSince" then .func handler.masterChangesSince
  else if name = "masterWrite" then .func handler.masterWrite
  else .nonFunc

/-- Dispatch decision of the TypeScript message handler
(`websocket-server.ts`): the message is ignored exactly when
`collectionRules` is provided and the awaited result of
`collectionRules(req, message.collection)` is false. -/
def tsDispatchesMessage (collectionRules : Option CollectionRules)
    (req : HttpRequest) (collectionName : String) : Bool :=
  match collectionRules with
  | none => true
  | some rules => (rules req collectionName).resolvesTo

/-- Dispatch decision of the compiled JavaScript message handler
(`websocket-server.js`): the compiled code negates
`options.collectionRules(req, message.collection)` without awaiting it, so
it negates the `Promise` object itself. -/
def jsDispatchesMessage (collectionRules : Option CollectionRules)
    (req : HttpRequest) (collectionName : String) : Bool :=
  match collectionRules with
  | none => true
  | some rules => jsPromiseTruthy (rules req collectionName)

/-- State of one client connection of the websocket server, together with
the server-wide `replicationHandlerByCollection` map it mutates. Each
active subscription to a `masterChangeStream$` is recorded with a fresh
identifier and the collection whose handler owns the stream;
`onCloseHandlers` records, per created subscription, the unsubscribe
callback the message handler pushed. -/
structure ConnState where
  handlerMap : List (String × RxReplicationHandler)
  sent : List WebsocketMessageResponseType
  nextSubId : Nat
  activeSubs : List (Nat × String)
  onCloseHandlers : List Nat

/-- The per-connection state with a fresh server and no traffic. -/
def connStartState : ConnState :=
  { handlerMap := []
    sent := []
    nextSubId := 0
    activeSubs := []
    onCloseHandlers := [] }

/-- Events a connection observes: an incoming client message, an emission
of the `masterChangeStream$` of the named collection, and the close of the
client socket. -/
inductive ServerEvent
  | message (msg : WebsocketMessageType)
  | streamEmit (collectionName : String) (ev : JsValue)
  | close

/-- One step of the per-connection handler of `startWebsocketServer`
(TypeScript source). On a message: ignore it when `collectionRules` denies
it; resolve the replication handler (a missing collection throws, which
leaves the connection state unchanged); when the requested member is not a
function, subscribe to `masterChangeStream$` and push an unsubscribe
callback onto `onCloseHandlers`; when it is a function, invoke it on the
params array and send one response with the id and collection of the
request. On a stream emission: every active subscription to that stream
sends one response with id `stream`. On close: run every pushed close
handler, unsubscribing the recorded subscriptions. -/
def stepConn (database : RxDatabaseModel) (collectionRules : Option CollectionRules)
    (req : HttpRequest) (s : ConnState) (e : ServerEvent) : ConnState :=
  match e with
  | .message msg =>
    if tsDispatchesMessage collectionRules req msg.collection = false then s
    else
      match getReplicationHandler database s.handlerMap msg.collection with
      | .error _ => s
      | .ok (handler, handlerMap) =>
        match handlerMember handler msg.method with
        | .nonFunc =>
          { s with
            handlerMap := handlerMap
            activeSubs := s.activeSubs ++ [(s.nextSubId, msg.collection)]
            onCloseHandlers := s.onCloseHandlers ++ [s.nextSubId]
            nextSubId := s.nextSubId + 1 }
        | .func f =>
          { s with
            handlerMap := handlerMap
            sent := s.sent ++ [{ id := msg.id, collection := msg.collection, result := f msg.params }] }
  | .streamEmit collectionName ev =>
    { s with
      sent := s.sent ++ (s.activeSubs.filter (fun sub => sub.2 = collectionName)).map
        (fun _ => { id := "stream", collection := collectionName, result := ev }) }
  | .close =>
    { s with
      activeSubs := s.activeSubs.filter (fun sub => decide (sub.1 ∈ s.onCloseHandlers) = false)
      onCloseHandlers := [] }

/-- A whole trace of connection events, folded through `stepConn`. -/
def runConn (database : RxDatabaseModel) (collectionRules : Option CollectionRules)
    (req : HttpRequest) (s : ConnState) (events : List ServerEvent) : ConnState :=
  events.foldl (stepConn database collectionRules req) s

/-! ### Websocket server lifecycle (`startSocketServer` / `startWebsocketServer`) -/

/-- Observable state of a `WebsocketServerState`: the `closed` flag of
`closeServer`, whether `onConnection$` has completed, the connected
clients, the clients that have received `close()`, and whether the
underlying `wss` server has been closed. -/
structure WebsocketServerStateModel where
  closed : Bool
  onConnectionCompleted : Bool
  clients : List Nat
  closedClients : List Nat
  serverClosed : Bool
deriving DecidableEq

/-- The value `closeServer` hands back: either the shared
`PROMISE_RESOLVE_VOID` (when the state was already closed) or the fresh
promise that settles once the server close callback fires. -/
inductive ClosePromise
  | resolvedVoid
  | closingPromise
deriving DecidableEq

/-- Embedding of `closeServer` of `startSocketServer`: when already
closed, return the pre-resolved promise and change nothing; otherwise set
`closed`, complete `onConnection$`, close every connected client, and
close the server. -/
def closeServer (s : WebsocketServerStateModel) :
    ClosePromise × WebsocketServerStateModel :=
  if s.closed then
    (.resolvedVoid, s)
  else
    (.closingPromise,
      { s with
        closed := true
        onConnectionCompleted := true
        clients := []
        closedClients := s.closedClients ++ s.clients
        serverClosed := true })

/-- The server state `startSocketServer` creates: not closed, nothing
completed, no clients yet. -/
def startSocketServer : WebsocketServerStateModel :=
  { closed := false
    onConnectionCompleted := false
    clients := []
    closedClients := []
    serverClosed := false }

/-- Embedding of the lifecycle part of `startWebsocketServer`: start the
socket server and push a hook closing its state onto
`database.onDestroy`. -/
def startWebsocketServer (database : RxDatabaseModel) :
    RxDatabaseModel × WebsocketServerStateModel :=
  ({ database with onDestroy := database.onDestroy ++ [DestroyHook.closeServerState] },
    startSocketServer)

/-! ### LokiJS helper: `getLokiSortComparator` -/

/-- Error codes of `newRxError` as raised by the modelled helpers. `SNH`
stands for the should-not-happen error of `rx-error.ts`. -/
inductive RxErrorCode
  | SNH
deriving DecidableEq

/-- A sort direction of a mango query (`asc` or `desc`). -/
inductive MangoQuerySortDirection
  | asc
  | desc
deriving DecidableEq

/-- One sort part of a mango query: in the source an object with a single
key (the field name) whose value is the direction; embedded as the pair of
the two. -/
structure MangoQuerySortPart where
  fieldName : String
  direction : MangoQuerySortDirection
deriving DecidableEq

/-- The part of a mango query `getLokiSortComparator` reads: the optional
sort specification. -/
structure MangoQueryModel where
  sort : Option (List MangoQuerySortPart)

/-- A document as seen by the comparator: its top-level fields. -/
def LokiDoc : Type :=
  List (String × JsValue)

/-- Modelled from the spec: `getProperty` of `plugins/utils` is not part
of the excerpt; it resolves a field path on a document, yielding
`undefined` for an absent field. The claims under verification use
top-level fields only, so the path is embedded as a plain field lookup. -/
def getProperty (doc : LokiDoc) (fieldName : String) : JsValue :=
  (doc.lookup fieldName).getD .undefined

/-- One iteration of the `sortOptions.find` callback inside the comparator
of `getLokiSortComparator`: compare the two documents on one sort part.
`none` means the values are strictly equal and the callback returns false
(the find moves on); `some r` means the callback set `compareResult := r`
and stopped the find. -/
def lokiSortCompareAt (a b : LokiDoc) (sortPart : MangoQuerySortPart) : Option Int :=
  let directionMultiplier : Int := if sortPart.direction = .asc then 1 else -1
  let valueA := getProperty a sortPart.fieldName
  let valueB := getProperty b sortPart.fieldName
  if jsStrictEq valueA valueB then
    none
  else
    if jsGt valueA valueB then
      some (1 * directionMultiplier)
    else
      some (-1 * directionMultiplier)

/-- The comparator function `getLokiSortComparator` returns:
`compareResult` starts at `0`, the find over the sort parts may set it,
and if it is still falsy afterwards the `SNH` error is thrown. -/
def lokiSortComparatorFun (sortOptions : List MangoQuerySortPart)
    (a b : LokiDoc) : Except RxErrorCode Int :=
  let compareResult : Int := ((sortOptions.findSome? (lokiSortCompareAt a b)).getD 0)
  if compareResult = 0 then
    .error .SNH
  else
    .ok compareResult

/-- Embedding of `getLokiSortComparator` of the LokiJS helper module: throw
`SNH` when the query has no sort, and otherwise return the comparator
closed over the sort parts. -/
def getLokiSortComparator (query : MangoQueryModel) :
    Except RxErrorCode (LokiDoc → LokiDoc → Except RxErrorCode Int) :=
  match query.sort with
  | none => .error .SNH
  | some sortOptions => .ok (lokiSortComparatorFun sortOptions)

/-! ### LokiJS helper: `mustUseLocalState` -/

/-- The local database state `createLokiLocalState` produces, keyed by the
parameters the call site passes. -/
structure LokiLocalDatabaseState where
  databaseInstanceToken : String
  databaseName : String
  collectionName : String
  multiInstance : Bool
deriving DecidableEq

/-- Modelled from the spec: `createLokiLocalState` of
`rx-storage-instance-loki.ts` is not part of the excerpt; it creates the
local Loki database state for the given parameters, deterministically. -/
def createLokiLocalState (databaseInstanceToken databaseName collectionName : String)
    (multiInstance : Bool) : LokiLocalDatabaseState :=
  { databaseInstanceToken := databaseInstanceToken
    databaseName := databaseName
    collectionName := collectionName
    multiInstance := multiInstance }

/-- Errors `mustUseLocalState` can raise: the explicit throw on a closed
instance, and the `ensureNotFalsy` failure when the instance has no leader
elector. -/
inductive LokiError
  | alreadyClosed (databaseName collectionName : String)
  | ensureNotFalsyFailed
deriving DecidableEq

/-- The internals of a Loki storage instance as read by
`mustUseLocalState`: the lazily created local state and the presence of a
leader elector. -/
structure LokiInternals where
  localState : Option LokiLocalDatabaseState
  hasLeaderElector : Bool
deriving DecidableEq

/-- The fields of `RxStorageInstanceLoki` read by the modelled helpers. -/
structure RxStorageInstanceLokiModel where
  closed : Bool
  databaseInstanceToken : String
  databaseName : String
  collectionName : String
  internals : LokiInternals

/-- Embedding of `mustUseLocalState` of the LokiJS helper module. The
awaited `waitUntilHasLeader` call suspends, and concurrent subtasks may
have created the local state or won leadership meanwhile; those
observations after the wait enter as the explicit inputs
`postWaitLocalState` (the `instance.internals.localState` field as re-read
after the wait) and `isLeaderAfterWait` (the `leaderElector.isLeader` flag
as read after the wait). The result pairs the returned value (`none`
models the returned `false`, meaning a remote instance must be used) with
the `internals.localState` field as left behind by the call. -/
def mustUseLocalState (inst : RxStorageInstanceLokiModel)
    (postWaitLocalState : Option LokiLocalDatabaseState)
    (isLeaderAfterWait : Bool) :
    Except LokiError (Option LokiLocalDatabaseState × Option LokiLocalDatabaseState) :=
  if inst.closed then
    .error (.alreadyClosed inst.databaseName inst.collectionName)
  else
    match inst.internals.localState with
    | some st => .ok (some st, some st)
    | none =>
      if inst.internals.hasLeaderElector = false then
        .error .ensureNotFalsyFailed
      else
        match postWaitLocalState with
        | some st => .ok (some st, some st)
        | none =>
          if isLeaderAfterWait then
            let st := createLokiLocalState inst.databaseInstanceToken
              inst.databaseName inst.collectionName
              inst.internals.hasLeaderElector
            .ok (some st, some st)
          else
            .ok (none, none)

/-! ### LokiJS helper: `requestRemoteInstance` -/

/-- The two kinds of broadcast-channel listeners `requestRemoteInstance`
registers: the `message` listener for the response and the `internal`
listener for the leader-death signal. -/
inductive BcListenerKind
  | messageKind
  | internalKind
deriving DecidableEq

/-- The request message `requestRemoteInstance` posts on the broadcast
channel. -/
structure LokiRemoteRequest where
  response : Bool
  operation : String
  params : List JsValue
  requestId : String
  databaseName : String
  collectionName : String

/-- A broadcast channel with its registered listeners (tagged with fresh
identifiers) and the messages posted on it. -/
structure BroadcastChannelModel where
  listeners : List (BcListenerKind × Nat)
  nextListenerId : Nat
  posted : List LokiRemoteRequest

/-- Register a listener on the channel, handing back its fresh
identifier. -/
def addBcListener (ch : BroadcastChannelModel) (kind : BcListenerKind) :
    BroadcastChannelModel × Nat :=
  ({ ch with
      listeners := ch.listeners ++ [(kind, ch.nextListenerId)]
      nextListenerId := ch.nextListenerId + 1 },
    ch.nextListenerId)

/-- Remove one registered listener from the channel. A listener is
identified by the identifier handed out at registration (the identity of
the listener function at the `removeEventListener` call site); the kind is
carried along to mirror the call site but the identifier alone determines
the listener. -/
def removeBcListener (ch : BroadcastChannelModel) (_kind : BcListenerKind) (id : Nat) :
    BroadcastChannelModel :=
  { ch with listeners := ch.listeners.filter (fun l => !decide (l.2 = id)) }

/-- Post a message on the channel. -/
def postBcMessage (ch : BroadcastChannelModel) (msg : LokiRemoteRequest) :
    BroadcastChannelModel :=
  { ch with posted := ch.posted ++ [msg] }

/-- Which promise of the `Promise.race` inside `requestRemoteInstance`
settles first: either the leader-death listener fired (retry), or a
response for the request arrived, marked as an error or as a result. -/
inductive RemoteRaceWinner
  | leaderDeath
  | response (isError : Bool) (result : JsValue)

/-- The local operation table of the instance,
`(instance as any)[operation](...params)`. -/
def LokiOperationTable : Type :=
  String → List JsValue → JsValue

/-- Embedding of `requestRemoteInstance` of the LokiJS helper module:
register the leader-death (`internal`) listener and the response
(`message`) listener, post the request, race; once the race settles,
remove both listeners, and then either re-run the operation on this
instance (leader died), throw the error a response carried, or return the
result a response carried. The `requestId` produced by `randomCouchString`
and the race outcome are explicit inputs. -/
def requestRemoteInstance (inst : RxStorageInstanceLokiModel)
    (operations : LokiOperationTable) (operation : String) (params : List JsValue)
    (requestId : String) (winner : RemoteRaceWinner) (ch : BroadcastChannelModel) :
    Except JsValue JsValue × BroadcastChannelModel :=
  let afterDeathListener := addBcListener ch .internalKind
  let whenDeathListenerId := afterDeathListener.2
  let afterResponseListener := addBcListener afterDeathListener.1 .messageKind
  let responseListenerId := afterResponseListener.2
  let afterPost := postBcMessage afterResponseListener.1
    { response := false
      operation := operation
      params := params
      requestId := requestId
      databaseName := inst.databaseName
      collectionName := inst.collectionName }
  let afterCleanup := removeBcListener
    (removeBcListener afterPost .messageKind responseListenerId)
    .internalKind whenDeathListenerId
  match winner with
  | .leaderDeath => (.ok (operations operation params), afterCleanup)
  | .response true errorResult => (.error errorResult, afterCleanup)
  | .response false result => (.ok result, afterCleanup)

/-! ### Dexie.js query runner: `dexieQuery` -/

/-- A stored document as the Dexie query runner sees it: the `_deleted`
flag it inspects and the remaining data, opaque to the runner but visible
to the query matcher and the sort comparator. -/
structure DexieDoc where
  deleted : Bool
  data : List (String × JsValue)
deriving DecidableEq

/-- The inputs `dexieQuery` reads off a prepared query. `skip` and `limit`
are the optional fields of the mango query; `selectorSatisfiedByIndex` and
`sortFieldsSameAsIndexFields` come from the query plan. The matcher
models `getQueryMatcher(instance.schema, preparedQuery.query)` and the
comparator models `getSortComparator(instance.schema, preparedQuery.query)`
(both live in `rx-query-helper.ts`, which is not part of the excerpt, and
are modelled from the spec as the declarative filter and sort of the
query, an arbitrary predicate and an arbitrary comparator here). -/
structure DexiePreparedQuery where
  skip : Option Nat
  limit : Option Nat
  selectorSatisfiedByIndex : Bool
  sortFieldsSameAsIndexFields : Bool
  matcher : DexieDoc → Bool
  sortComparator : DexieDoc → DexieDoc → Int

/-- The local `skip` variable of `dexieQuery`: `query.skip ? query.skip : 0`
(an absent or zero skip is falsy and yields `0`). -/
def dexieSkip (q : DexiePreparedQuery) : Nat :=
  match q.skip with
  | none => 0
  | some s => s

/-- The local `limit` variable of `dexieQuery`:
`query.limit ? query.limit : Infinity`. A `none` result models `Infinity`;
note that a stored limit of `0` is falsy in JavaScript and therefore also
yields `Infinity`. -/
def dexieLimit (q : DexiePreparedQuery) : Option Nat :=
  match q.limit with
  | none => none
  | some l => if l = 0 then none else some l

/-- The local `skipPlusLimit` variable of `dexieQuery`: `skip + limit`,
infinite when the limit is. -/
def dexieSkipPlusLimit (q : DexiePreparedQuery) : Option Nat :=
  (dexieLimit q).map (fun l => dexieSkip q + l)

/-- The predicate under which the cursor callback pushes a row: the
document is not `_deleted`, and either no manual `queryMatcher` is needed
(the query plan satisfies the selector by the index) or the matcher
accepts the document. -/
def dexiePushPred (q : DexiePreparedQuery) (doc : DexieDoc) : Bool :=
  !doc.deleted && (q.selectorSatisfiedByIndex || q.matcher doc)

/-- The cursor loop of `dexieQuery`: visit the records the index hands
out in order, push those passing the predicate, and abort early once
`rows.length === skipPlusLimit` (only ever with a finite bound, and only
when the query plan sorts by the index, encoded by `stopAt`). -/
def dexieCursorLoop (pred : DexieDoc → Bool) (stopAt : Option Nat) :
    List DexieDoc → List DexieDoc → List DexieDoc
  | [], rows => rows
  | doc :: rest, rows =>
    let rows' := if pred doc then rows ++ [doc] else rows
    if stopAt = some rows'.length then rows'
    else dexieCursorLoop pred stopAt rest rows'

/-- JS stable sort `rows.sort(cmp)`: insert each element after every
earlier element the comparator does not place strictly after it.
`Array.prototype.sort` with a comparator is stable, which this insertion
sort mirrors. -/
def jsSortInsert {α : Type} (cmp : α → α → Int) (x : α) : List α → List α
  | [] => [x]
  | y :: ys => if cmp x y < 0 then x :: y :: ys else y :: jsSortInsert cmp x ys

/-- JS stable sort of a whole array by a comparator. -/
def jsSort {α : Type} (cmp : α → α → Int) : List α → List α
  | [] => []
  | x :: xs => jsSortInsert cmp x (jsSort cmp xs)

/-- JS `Array.prototype.slice(start, end)` with a possibly infinite
`end`. -/
def jsSlice {α : Type} (start : Nat) (stop : Option Nat) (l : List α) : List α :=
  match stop with
  | none => l.drop start
  | some e => (l.take e).drop start

/-- Embedding of `dexieQuery` of the Dexie.js storage plugin. The records
the IndexedDB cursor visits (the rows of the chosen index inside the key
range, in index order) enter as `cursorDocs`. The function collects the
non-deleted matching rows (aborting early when the index order already is
the sort order and enough rows are collected), sorts manually when the
index order is not the sort order, and applies the skip and limit
boundaries via `slice`. -/
def dexieQuery (q : DexiePreparedQuery) (cursorDocs : List DexieDoc) : List DexieDoc :=
  let stopAt : Option Nat :=
    if q.sortFieldsSameAsIndexFields then dexieSkipPlusLimit q else none
  let rows := dexieCursorLoop (dexiePushPred q) stopAt cursorDocs []
  let sorted := if q.sortFieldsSameAsIndexFields then rows else jsSort q.sortComparator rows
  jsSlice (dexieSkip q) (dexieSkipPlusLimit q) sorted

/-! ### Auxiliary lemmas -/

theorem lookup_mem {β : Type} {α : Type} [BEq α] [LawfulBEq α] :
    ∀ (l : List (α × β)) (k : α) (v : β), l.lookup k = some v → (k, v) ∈ l := by
  intro l
  induction l with
  | nil => intro k v h; simp [List.lookup] at h
  | cons p t ih =>
    intro k v h
    rw [List.lookup] at h
    cases hb : k == p.1 with
    | true =>
      rw [hb] at h
      have hk : k = p.1 := eq_of_beq hb
      cases h
      have hp : (k, p.2) = p := by rw [hk]
      rw [hp]
      exact List.mem_cons_self p t
    | false =>
      rw [hb] at h
      exact List.mem_cons_of_mem _ (ih k v h)

theorem getFromMapOrCreate_lookup_self {α : Type} (map : List (String × α))
    (key : String) (create : Unit → α) :
    ((getFromMapOrCreate map key create).2).lookup key =
      some (getFromMapOrCreate map key create).1 := by
  unfold getFromMapOrCreate
  cases h : map.lookup key with
  | some v => simp [h]
  | none => simp [h, List.lookup]

theorem getFromMapOrCreate_hit {α : Type} (map : List (String × α))
    (key : String) (create : Unit → α) (v : α) (h : map.lookup key = some v) :
    getFromMapOrCreate map key create = (v, map) := by
  unfold getFromMapOrCreate
  rw [h]

theorem getReplicationHandler_ok_elim
    (database : RxDatabaseModel) (map : List (String × RxReplicationHandler))
    (name : String) (handler : RxReplicationHandler)
    (map' : List (String × RxReplicationHandler))
    (hok : getReplicationHandler database map name = .ok (handler, map')) :
    ∃ c, database.collections.lookup name = some c ∧
      getFromMapOrCreate map name
        (fun _ => rxStorageInstanceToReplicationHandler
          c.storageInstance c.conflictHandler database.token) = (handler, map') := by
  unfold getReplicationHandler at hok
  cases hcol : database.collections.lookup name with
  | none => rw [hcol] at hok; exact absurd hok (by simp)
  | some c =>
    rw [hcol] at hok
    refine ⟨c, rfl, ?_⟩
    exact Except.ok.inj hok

/-! ### Claim theorems: websocket replication server -/

/-- C1: for every replication handler the websocket server creates (via
`getReplicationHandler`, over any handler map whose entries were
themselves created from the database), the injected conflict handler is
exactly the conflict handler of the named collection, a pure function, so
any two invocations with identical masterState, forkState and
assumedMasterState inputs yield identical outcomes. -/
theorem createdConflictHandlerDeterministic
    (database : RxDatabaseModel) (map : List (String × RxReplicationHandler))
    (name : String) (handler : RxReplicationHandler)
    (map' : List (String × RxReplicationHandler))
    (hmap : ∀ p ∈ map, handlerFor database p.1 = some p.2)
    (hok : getReplicationHandler database map name = .ok (handler, map')) :
    (∃ c, database.collections.lookup name = some c ∧
      handler.conflictHandler = c.conflictHandler) ∧
    ∀ (masterState forkState : JsValue) (assumedMasterState : Option JsValue),
      handler.conflictHandler masterState forkState assumedMasterState =
        handler.conflictHandler masterState forkState assumedMasterState := by
  constructor
  · obtain ⟨c, hcol, hpair⟩ := getReplicationHandler_ok_elim database map name handler map' hok
    refine ⟨c, hcol, ?_⟩
    unfold getFromMapOrCreate at hpair
    cases hhit : map.lookup name with
    | some v =>
      rw [hhit] at hpair
      have hv : handler = v := congrArg Prod.fst hpair.symm
      have hmem : (name, v) ∈ map := lookup_mem map name v hhit
      have hfor := hmap (name, v) hmem
      unfold handlerFor at hfor
      rw [hcol] at hfor
      simp at hfor
      rw [hv, ← hfor]
      rfl
    | none =>
      rw [hhit] at hpair
      have hv : handler = rxStorageInstanceToReplicationHandler
          c.storageInstance c.conflictHandler database.token :=
        congrArg Prod.fst hpair.symm
      rw [hv]
      rfl
  · intro masterState forkState assumedMasterState
    rfl

/-- C2: for a collection name present in `database.collections`, every
call to `getReplicationHandler` returns the handler stored in the map,
creating it at most once: a second call (over the map the first call left
behind) returns the identical handler and leaves the map unchanged. A call
with a name not present in `database.collections` raises an error. -/
theorem getReplicationHandlerMemoizes
    (database : RxDatabaseModel) (map : List (String × RxReplicationHandler))
    (name : String) :
    (database.collections.lookup name = none →
      getReplicationHandler database map name =
        .error ("collection " ++ name ++ " does not exist")) ∧
    (∀ handler map', getReplicationHandler database map name = .ok (handler, map') →
      getReplicationHandler database map' name = .ok (handler, map')) := by
  constructor
  · intro hnone
    unfold getReplicationHandler
    rw [hnone]
  · intro handler map' hok
    obtain ⟨c, hcol, hpair⟩ := getReplicationHandler_ok_elim database map name handler map' hok
    have hlook : map'.lookup name = some handler := by
      have hself := getFromMapOrCreate_lookup_self map name
        (fun _ => rxStorageInstanceToReplicationHandler
          c.storageInstance c.conflictHandler database.token)
      rw [hpair] at hself
      exact hself
    unfold getReplicationHandler
    rw [hcol]
    show Except.ok (getFromMapOrCreate map' name
      (fun _ => rxStorageInstanceToReplicationHandler
        c.storageInstance c.conflictHandler database.token)) = Except.ok (handler, map')
    rw [getFromMapOrCreate_hit map' name _ handler hlook]

/-! ### Sample fixtures for witness instantiations -/

/-- A concrete injected conflict policy for witnesses: resolve to the
master state. -/
def sampleConflictHandler : RxConflictHandler :=
  fun masterState _ _ => RxConflictOutcome.resolved masterState

/-- A concrete collection. -/
def sampleCollection : RxCollectionModel :=
  { storageInstance := [JsValue.num 1], conflictHandler := sampleConflictHandler }

/-- A concrete database holding one collection named `humans`. -/
def sampleDatabase : RxDatabaseModel :=
  { collections := [("humans", sampleCollection)], token := "tok", onDestroy := [] }

/-- The handler the server creates for `humans` of `sampleDatabase`. -/
def sampleHandler : RxReplicationHandler :=
  rxStorageInstanceToReplicationHandler sampleCollection.storageInstance
    sampleCollection.conflictHandler sampleDatabase.token

/-- The handler map after the first `getReplicationHandler` call for
`humans` on a fresh server. -/
def sampleHandlerMap : List (String × RxReplicationHandler) :=
  [("humans", sampleHandler)]

theorem createdConflictHandlerDeterministicWitness :
    (∃ c, sampleDatabase.collections.lookup "humans" = some c ∧
      sampleHandler.conflictHandler = c.conflictHandler) ∧
    sampleHandler.conflictHandler (JsValue.num 1) (JsValue.num 2) none =
      sampleHandler.conflictHandler (JsValue.num 1) (JsValue.num 2) none :=
  ⟨(createdConflictHandlerDeterministic sampleDatabase [] "humans" sampleHandler
      sampleHandlerMap (by intro p hp; cases hp) rfl).1,
    (createdConflictHandlerDeterministic sampleDatabase [] "humans" sampleHandler
      sampleHandlerMap (by intro p hp; cases hp) rfl).2 (JsValue.num 1) (JsValue.num 2) none⟩

theorem getReplicationHandlerMemoizesWitness :
    getReplicationHandler sampleDatabase [] "nope" =
      .error ("collection " ++ "nope" ++ " does not exist") ∧
    getReplicationHandler sampleDatabase sampleHandlerMap "humans" =
      .ok (sampleHandler, sampleHandlerMap) :=
  ⟨(getReplicationHandlerMemoizes sampleDatabase [] "nope").1 rfl,
    (getReplicationHandlerMemoizes sampleDatabase [] "humans").2
      sampleHandler sampleHandlerMap rfl⟩

/-- C3, divergence of the compiled JavaScript from its TypeScript source:
with a `collectionRules` policy that resolves to `false`, the TypeScript
handler ignores the message (it awaits the promise), while the compiled
handler dispatches it (it negates the un-awaited promise object, which is
truthy, so the access-denial branch is unreachable). -/
theorem compiledCollectionRulesDivergence :
    jsDispatchesMessage (some (fun _ _ => { resolvesTo := false })) "req" "humans" = true ∧
    tsDispatchesMessage (some (fun _ _ => { resolvesTo := false })) "req" "humans" = false ∧
    ∀ (rules : Option CollectionRules) (req : HttpRequest) (collectionName : String),
      jsDispatchesMessage rules req collectionName = true :=
  ⟨rfl, rfl, fun rules _ _ => by cases rules <;> rfl⟩

/-- C5: closing the websocket server state is idempotent. On a state that
is not yet closed, `closeServer` completes the connection observable,
closes every connected client and the server itself and hands back the
closing promise; a second call returns the already-resolved promise and
changes nothing, and the same holds for every call on an already-closed
state. `startWebsocketServer` pushes the hook that closes this state onto
`database.onDestroy`. -/
theorem closeServerIdempotent (s : WebsocketServerStateModel)
    (database : RxDatabaseModel) (hopen : s.closed = false) :
    (closeServer s).1 = .closingPromise ∧
    (closeServer s).2.closed = true ∧
    (closeServer s).2.onConnectionCompleted = true ∧
    (closeServer s).2.clients = [] ∧
    (closeServer s).2.closedClients = s.closedClients ++ s.clients ∧
    (closeServer s).2.serverClosed = true ∧
    closeServer (closeServer s).2 = (.resolvedVoid, (closeServer s).2) ∧
    (∀ t : WebsocketServerStateModel, t.closed = true →
      closeServer t = (.resolvedVoid, t)) ∧
    DestroyHook.closeServerState ∈ ((startWebsocketServer database).1).onDestroy := by
  have hclosed : ∀ t : WebsocketServerStateModel, t.closed = true →
      closeServer t = (.resolvedVoid, t) := by
    intro t ht
    unfold closeServer
    rw [ht]
    rfl
  refine ⟨?_, ?_, ?_, ?_, ?_, ?_, ?_, hclosed, ?_⟩
  · unfold closeServer; rw [hopen]; rfl
  · unfold closeServer; rw [hopen]; rfl
  · unfold closeServer; rw [hopen]; rfl
  · unfold closeServer; rw [hopen]; rfl
  · unfold closeServer; rw [hopen]; rfl
  · unfold closeServer; rw [hopen]; rfl
  · apply hclosed
    unfold closeServer; rw [hopen]; rfl
  · unfold startWebsocketServer
    simp

theorem closeServerIdempotentWitness :
    startSocketServer.closed = false ∧
    (closeServer startSocketServer).1 = .closingPromise ∧
    closeServer (closeServer startSocketServer).2 =
      (.resolvedVoid, (closeServer startSocketServer).2) ∧
    DestroyHook.closeServerState ∈ ((startWebsocketServer sampleDatabase).1).onDestroy :=
  ⟨rfl,
    (closeServerIdempotent startSocketServer sampleDatabase rfl).1,
    (closeServerIdempotent startSocketServer sampleDatabase rfl).2.2.2.2.2.2.1,
    (closeServerIdempotent startSocketServer sampleDatabase rfl).2.2.2.2.2.2.2.2⟩

/-- One stream emission appends one response per active subscription to
that stream and changes nothing else. -/
theorem stepConn_streamEmit (database : RxDatabaseModel)
    (collectionRules : Option CollectionRules) (req : HttpRequest)
    (s : ConnState) (collectionName : String) (ev : JsValue) :
    stepConn database collectionRules req s (.streamEmit collectionName ev) =
      { s with sent := (s.sent ++
          (s.activeSubs.filter (fun sub => sub.2 = collectionName)).map
            (fun _ => { id := "stream", collection := collectionName, result := ev })) } :=
  rfl

/-- Running a sequence of stream emissions for a collection over a state
whose single active subscription targets that collection sends one
`stream` response per emission, in order, and changes nothing else. -/
theorem runConn_emits (database : RxDatabaseModel)
    (collectionRules : Option CollectionRules) (req : HttpRequest)
    (collectionName : String) :
    ∀ (evs : List JsValue) (s : ConnState) (subId : Nat),
      s.activeSubs = [(subId, collectionName)] →
      runConn database collectionRules req s
          (evs.map (ServerEvent.streamEmit collectionName)) =
        { s with sent := (s.sent ++ evs.map
            (fun ev => { id := "stream", collection := collectionName, result := ev })) } := by
  intro evs
  induction evs with
  | nil =>
    intro s subId hsubs
    simp [runConn]
  | cons ev rest ih =>
    intro s subId hsubs
    have hstep : stepConn database collectionRules req s (.streamEmit collectionName ev) =
        { s with sent := (s.sent ++
            [{ id := "stream", collection := collectionName, result := ev }]) } := by
      rw [stepConn_streamEmit]
      rw [hsubs]
      simp
    have hrun : runConn database collectionRules req s
        ((ev :: rest).map (ServerEvent.streamEmit collectionName)) =
        runConn database collectionRules req
          (stepConn database collectionRules req s (.streamEmit collectionName ev))
          (rest.map (ServerEvent.streamEmit collectionName)) := rfl
    rw [hrun, hstep]
    rw [ih _ subId (by rw [hsubs])]
    simp

/-- C6: a client message whose method names a function of the replication
handler invokes that function on exactly the params array of the message
and appends exactly one response, carrying the id and collection of the
request and the result of the function; the subscriptions and close
handlers of the connection are untouched. -/
theorem functionMethodRespondsOnce (database : RxDatabaseModel)
    (collectionRules : Option CollectionRules) (req : HttpRequest)
    (s : ConnState) (msg : WebsocketMessageType)
    (handler : RxReplicationHandler) (map' : List (String × RxReplicationHandler))
    (f : List JsValue → JsValue)
    (hdisp : tsDispatchesMessage collectionRules req msg.collection = true)
    (hok : getReplicationHandler database s.handlerMap msg.collection = .ok (handler, map'))
    (hf : handlerMember handler msg.method = .func f) :
    stepConn database collectionRules req s (.message msg) =
      { s with
        handlerMap := map'
        sent := (s.sent ++
          [{ id := msg.id, collection := msg.collection, result := f msg.params }]) } := by
  simp only [stepConn, hdisp, hok, hf]
  simp

/-- A concrete client message invoking the push function of the handler. -/
def sampleWriteMessage : WebsocketMessageType :=
  { id := "42", collection := "humans", method := "masterWrite", params := [JsValue.num 3] }

/-- The connection state of a fresh connection on a server that already
holds the handler for `humans`. -/
def sampleConnState : ConnState :=
  { connStartState with handlerMap := sampleHandlerMap }

/-- The response the push invocation of `sampleWriteMessage` produces. -/
def sampleWriteResponse : WebsocketMessageResponseType :=
  { id := "42", collection := "humans", result := sampleHandler.masterWrite [JsValue.num 3] }

theorem functionMethodRespondsOnceWitness :
    tsDispatchesMessage none "req" "humans" = true ∧
    stepConn sampleDatabase none "req" sampleConnState (.message sampleWriteMessage) =
      { sampleConnState with handlerMap := sampleHandlerMap, sent := [sampleWriteResponse] } :=
  ⟨rfl,
    functionMethodRespondsOnce sampleDatabase none "req" sampleConnState sampleWriteMessage
      sampleHandler sampleHandlerMap sampleHandler.masterWrite rfl rfl rfl⟩

/-- The connection state after a fresh connection receives one message. -/
def connAfterMessage (database : RxDatabaseModel)
    (collectionRules : Option CollectionRules) (req : HttpRequest)
    (msg : WebsocketMessageType) : ConnState :=
  stepConn database collectionRules req connStartState (.message msg)

/-- The connection state after the message and a sequence of emissions of
the `masterChangeStream$` of the collection of the message. -/
def connAfterEmits (database : RxDatabaseModel)
    (collectionRules : Option CollectionRules) (req : HttpRequest)
    (msg : WebsocketMessageType) (evs : List JsValue) : ConnState :=
  runConn database collectionRules req
    (connAfterMessage database collectionRules req msg)
    (evs.map (ServerEvent.streamEmit msg.collection))

/-- The connection state after the message, the emissions and the close of
the client socket. -/
def connAfterClose (database : RxDatabaseModel)
    (collectionRules : Option CollectionRules) (req : HttpRequest)
    (msg : WebsocketMessageType) (evs : List JsValue) : ConnState :=
  stepConn database collectionRules req
    (connAfterEmits database collectionRules req msg evs) .close

/-- C4: a client message whose method names a non-function property of the
replication handler subscribes to `masterChangeStream$` without sending a
response; every event the stream then emits is sent to the client as a
response with id `stream` and the collection of the request; and when the
client socket closes, the pushed close handler unsubscribes the
subscription. -/
theorem changeStreamSubscriptionLifecycle (database : RxDatabaseModel)
    (collectionRules : Option CollectionRules) (req : HttpRequest)
    (msg : WebsocketMessageType) (evs : List JsValue)
    (handler : RxReplicationHandler) (map' : List (String × RxReplicationHandler))
    (hdisp : tsDispatchesMessage collectionRules req msg.collection = true)
    (hok : getReplicationHandler database connStartState.handlerMap msg.collection =
      .ok (handler, map'))
    (hnf : handlerMember handler msg.method = .nonFunc) :
    (connAfterMessage database collectionRules req msg).sent = [] ∧
    (connAfterMessage database collectionRules req msg).activeSubs = [(0, msg.collection)] ∧
    (connAfterMessage database collectionRules req msg).onCloseHandlers = [0] ∧
    (connAfterEmits database collectionRules req msg evs).sent =
      evs.map (fun ev => { id := "stream", collection := msg.collection, result := ev }) ∧
    (connAfterClose database collectionRules req msg evs).sent =
      (connAfterEmits database collectionRules req msg evs).sent ∧
    (connAfterClose database collectionRules req msg evs).activeSubs = [] := by
  have h1 : connAfterMessage database collectionRules req msg =
      { handlerMap := map', sent := [], nextSubId := 1,
        activeSubs := [(0, msg.collection)], onCloseHandlers := [0] } := by
    have hok' : getReplicationHandler database [] msg.collection = .ok (handler, map') := hok
    unfold connAfterMessage
    simp only [stepConn, hdisp, hok', hnf, connStartState]
    simp
  have h2 : connAfterEmits database collectionRules req msg evs =
      { handlerMap := map',
        sent := evs.map (fun ev =>
          { id := "stream", collection := msg.collection, result := ev }),
        nextSubId := 1, activeSubs := [(0, msg.collection)], onCloseHandlers := [0] } := by
    unfold connAfterEmits
    rw [h1]
    rw [runConn_emits database collectionRules req msg.collection evs _ 0 rfl]
    simp
  have h3 : connAfterClose database collectionRules req msg evs =
      { handlerMap := map',
        sent := evs.map (fun ev =>
          { id := "stream", collection := msg.collection, result := ev }),
        nextSubId := 1, activeSubs := [], onCloseHandlers := [] } := by
    unfold connAfterClose
    rw [h2]
    simp [stepConn]
  refine ⟨?_, ?_, ?_, ?_, ?_, ?_⟩
  · rw [h1]
  · rw [h1]
  · rw [h1]
  · rw [h2]
  · rw [h3, h2]
  · rw [h3]

/-- A concrete client message requesting the change stream. -/
def sampleStreamMessage : WebsocketMessageType :=
  { id := "s1", collection := "humans", method := "masterChangeStream$", params := [] }

theorem changeStreamSubscriptionLifecycleWitness :
    (connAfterMessage sampleDatabase none "req" sampleStreamMessage).sent = [] ∧
    (connAfterMessage sampleDatabase none "req" sampleStreamMessage).activeSubs =
      [(0, "humans")] ∧
    (connAfterEmits sampleDatabase none "req" sampleStreamMessage [JsValue.num 7]).sent =
      [{ id := "stream", collection := "humans", result := JsValue.num 7 }] ∧
    (connAfterClose sampleDatabase none "req" sampleStreamMessage [JsValue.num 7]).activeSubs = [] := by
  have h := changeStreamSubscriptionLifecycle sampleDatabase none "req" sampleStreamMessage
    [JsValue.num 7] sampleHandler sampleHandlerMap rfl rfl rfl
  exact ⟨h.1, h.2.1, h.2.2.2.1, h.2.2.2.2.2⟩

/-! ### Claim theorems: LokiJS helpers -/

/-- C8: `mustUseLocalState` raises the already-closed error for every
instance whose `closed` flag is set. For an open instance it returns the
local database state exactly when the instance holds leadership (a local
state exists, created earlier and returned unchanged — at most one
creation) or obtains it (it is leader after the wait, which creates the
state lazily); when another instance is the elected leader it returns
false (`none` here). An open instance without a leader elector fails the
`ensureNotFalsy` check. -/
theorem mustUseLocalStateLeadership (inst : RxStorageInstanceLokiModel)
    (postWaitLocalState : Option LokiLocalDatabaseState) (isLeaderAfterWait : Bool) :
    (inst.closed = true →
      mustUseLocalState inst postWaitLocalState isLeaderAfterWait =
        .error (.alreadyClosed inst.databaseName inst.collectionName)) ∧
    (inst.closed = false → ∀ st, inst.internals.localState = some st →
      mustUseLocalState inst postWaitLocalState isLeaderAfterWait = .ok (some st, some st)) ∧
    (inst.closed = false → inst.internals.localState = none →
      inst.internals.hasLeaderElector = false →
      mustUseLocalState inst postWaitLocalState isLeaderAfterWait =
        .error .ensureNotFalsyFailed) ∧
    (inst.closed = false → inst.internals.localState = none →
      inst.internals.hasLeaderElector = true →
      ((∀ st, postWaitLocalState = some st →
        mustUseLocalState inst postWaitLocalState isLeaderAfterWait = .ok (some st, some st)) ∧
      (postWaitLocalState = none → isLeaderAfterWait = true →
        mustUseLocalState inst postWaitLocalState isLeaderAfterWait =
          .ok (some (createLokiLocalState inst.databaseInstanceToken inst.databaseName
              inst.collectionName inst.internals.hasLeaderElector),
            some (createLokiLocalState inst.databaseInstanceToken inst.databaseName
              inst.collectionName inst.internals.hasLeaderElector))) ∧
      (postWaitLocalState = none → isLeaderAfterWait = false →
        mustUseLocalState inst postWaitLocalState isLeaderAfterWait = .ok (none, none)))) := by
  refine ⟨?_, ?_, ?_, ?_⟩
  · intro hclosed
    simp [mustUseLocalState, hclosed]
  · intro hopen st hst
    simp [mustUseLocalState, hopen, hst]
  · intro hopen hnone helec
    simp [mustUseLocalState, hopen, hnone, helec]
  · intro hopen hnone helec
    refine ⟨?_, ?_, ?_⟩
    · intro st hpw
      simp [mustUseLocalState, hopen, hnone, helec, hpw]
    · intro hpw hleader
      simp [mustUseLocalState, hopen, hnone, helec, hpw, hleader]
    · intro hpw hleader
      simp [mustUseLocalState, hopen, hnone, helec, hpw, hleader]

/-- A closed Loki storage instance. -/
def sampleClosedLoki : RxStorageInstanceLokiModel :=
  { closed := true, databaseInstanceToken := "t", databaseName := "db",
    collectionName := "c", internals := { localState := none, hasLeaderElector := true } }

/-- An open Loki storage instance without a local state yet. -/
def sampleOpenLoki : RxStorageInstanceLokiModel :=
  { closed := false, databaseInstanceToken := "t", databaseName := "db",
    collectionName := "c", internals := { localState := none, hasLeaderElector := true } }

theorem mustUseLocalStateLeadershipWitness :
    mustUseLocalState sampleClosedLoki none false = .error (.alreadyClosed "db" "c") ∧
    mustUseLocalState sampleOpenLoki none true =
      .ok (some (createLokiLocalState "t" "db" "c" true),
        some (createLokiLocalState "t" "db" "c" true)) ∧
    mustUseLocalState sampleOpenLoki none false = .ok (none, none) :=
  ⟨(mustUseLocalStateLeadership sampleClosedLoki none false).1 rfl,
    (mustUseLocalStateLeadership sampleOpenLoki none true).2.2.2 rfl rfl rfl |>.2.1 rfl rfl,
    (mustUseLocalStateLeadership sampleOpenLoki none false).2.2.2 rfl rfl rfl |>.2.2 rfl rfl⟩

/-- C9: the outcome of `requestRemoteInstance` per race result: when the
leader dies while the request is awaiting a response, the operation is
re-executed on this instance with the same params; when a response marked
as an error arrives, that error is thrown; otherwise the remote result is
returned. In every case, the two broadcast-channel listeners the call
registered are removed again before the call completes: the listener list
of the channel ends up exactly as it started. -/
theorem requestRemoteInstanceOutcomes (inst : RxStorageInstanceLokiModel)
    (operations : LokiOperationTable) (operation : String) (params : List JsValue)
    (requestId : String) (ch : BroadcastChannelModel)
    (hwf : ∀ l ∈ ch.listeners, l.2 < ch.nextListenerId) :
    (requestRemoteInstance inst operations operation params requestId .leaderDeath ch).1 =
      .ok (operations operation params) ∧
    (∀ r, (requestRemoteInstance inst operations operation params requestId
      (.response true r) ch).1 = .error r) ∧
    (∀ r, (requestRemoteInstance inst operations operation params requestId
      (.response false r) ch).1 = .ok r) ∧
    (∀ winner, ((requestRemoteInstance inst operations operation params requestId
      winner ch).2).listeners = ch.listeners) := by
  have hkeep1 : ch.listeners.filter (fun l => !decide (l.2 = ch.nextListenerId + 1)) =
      ch.listeners := by
    apply List.filter_eq_self.mpr
    intro a ha
    have hb := hwf a ha
    simp
    omega
  have hkeep2 : ch.listeners.filter (fun l => !decide (l.2 = ch.nextListenerId)) =
      ch.listeners := by
    apply List.filter_eq_self.mpr
    intro a ha
    have hb := hwf a ha
    simp
    omega
  have hclean : ∀ winner, ((requestRemoteInstance inst operations operation params requestId
      winner ch).2).listeners = ch.listeners := by
    intro winner
    have hlist : ((requestRemoteInstance inst operations operation params requestId
        winner ch).2).listeners =
        ((ch.listeners ++ [(BcListenerKind.internalKind, ch.nextListenerId)] ++
          [(BcListenerKind.messageKind, ch.nextListenerId + 1)]).filter
            (fun l => !decide (l.2 = ch.nextListenerId + 1))).filter
          (fun l => !decide (l.2 = ch.nextListenerId)) := by
      cases winner with
      | leaderDeath => rfl
      | response isError result => cases isError <;> rfl
    rw [hlist]
    simp [List.filter_append, hkeep1, hkeep2]
  exact ⟨rfl, fun r => rfl, fun r => rfl, hclean⟩

/-- A concrete broadcast channel with one listener already registered. -/
def sampleChannel : BroadcastChannelModel :=
  { listeners := [(BcListenerKind.messageKind, 0)], nextListenerId := 1, posted := [] }

theorem requestRemoteInstanceOutcomesWitness :
    (requestRemoteInstance sampleOpenLoki (fun _ ps => JsValue.num (Int.ofNat ps.length))
      "bulkWrite" [JsValue.num 5] "rid" .leaderDeath sampleChannel).1 =
      .ok (JsValue.num 1) ∧
    (requestRemoteInstance sampleOpenLoki (fun _ ps => JsValue.num (Int.ofNat ps.length))
      "bulkWrite" [JsValue.num 5] "rid" (.response true (JsValue.str "boom"))
      sampleChannel).1 = .error (JsValue.str "boom") ∧
    ((requestRemoteInstance sampleOpenLoki (fun _ ps => JsValue.num (Int.ofNat ps.length))
      "bulkWrite" [JsValue.num 5] "rid" .leaderDeath sampleChannel).2).listeners =
      sampleChannel.listeners := by
  have h := requestRemoteInstanceOutcomes sampleOpenLoki
    (fun _ ps => JsValue.num (Int.ofNat ps.length)) "bulkWrite" [JsValue.num 5] "rid"
    sampleChannel (by intro l hl; simp [sampleChannel] at hl; simp [hl, sampleChannel])
  exact ⟨h.1, h.2.1 (JsValue.str "boom"), h.2.2.2 .leaderDeath⟩

/-! ### Claim theorems: Loki sort comparator -/

theorem lokiSortCompareAt_values (a b : LokiDoc) (p : MangoQuerySortPart) (r : Int)
    (h : lokiSortCompareAt a b p = some r) : r = 1 ∨ r = -1 := by
  simp only [lokiSortCompareAt] at h
  split at h
  · cases h
  · split at h
    · have hr : r = 1 * (if p.direction = MangoQuerySortDirection.asc then (1:Int) else -1) :=
        (Option.some.inj h).symm
      rw [hr]
      split
      · left; norm_num
      · right; norm_num
    · have hr : r = -1 * (if p.direction = MangoQuerySortDirection.asc then (1:Int) else -1) :=
        (Option.some.inj h).symm
      rw [hr]
      split
      · right; norm_num
      · left; norm_num

theorem findSome?_append_none {α β : Type} (f : α → Option β) (pre rest : List α)
    (hpre : ∀ x ∈ pre, f x = none) :
    List.findSome? f (pre ++ rest) = List.findSome? f rest := by
  induction pre with
  | nil => rfl
  | cons x t ih =>
    have hx : f x = none := hpre x (List.mem_cons_self x t)
    rw [List.cons_append, List.findSome?_cons, hx]
    exact ih (fun y hy => hpre y (List.mem_cons_of_mem x hy))

theorem findSome?_isSome_of_mem {α β : Type} (f : α → Option β) (l : List α) (x : α) (r : β)
    (hx : x ∈ l) (hfx : f x = some r) : ∃ v, List.findSome? f l = some v := by
  induction l with
  | nil => cases hx
  | cons y t ih =>
    rw [List.findSome?_cons]
    cases hfy : f y with
    | some b => exact ⟨b, rfl⟩
    | none =>
      rcases List.mem_cons.mp hx with heq | hmem
      · rw [heq] at hfx; rw [hfx] at hfy; cases hfy
      · exact ih hmem

theorem findSome?_mem_of_eq_some {α β : Type} (f : α → Option β) :
    ∀ (l : List α) (r : β), List.findSome? f l = some r → ∃ x ∈ l, f x = some r := by
  intro l
  induction l with
  | nil => intro r h; cases h
  | cons y t ih =>
    intro r h
    rw [List.findSome?_cons] at h
    cases hfy : f y with
    | some b =>
      rw [hfy] at h
      cases h
      exact ⟨y, List.mem_cons_self y t, hfy⟩
    | none =>
      rw [hfy] at h
      obtain ⟨x, hxmem, hfx⟩ := ih r h
      exact ⟨x, List.mem_cons_of_mem y hxmem, hfx⟩

/-- C7: the comparator of `getLokiSortComparator` orders two documents by
the first sort field on which they differ, ascending or descending per
the declared direction of that field, and never reports a tie: whenever
some sort field — in particular the unique primary key, which distinct
documents must differ on — holds strictly different values, the comparator
returns a nonzero result and the should-not-happen error branch for
documents equal on all sort fields is not taken. -/
theorem lokiSortComparatorOrdersByFirstDiff (sortOptions : List MangoQuerySortPart)
    (a b : LokiDoc) :
    getLokiSortComparator { sort := some sortOptions } =
      .ok (lokiSortComparatorFun sortOptions) ∧
    (∀ pre p post, sortOptions = pre ++ p :: post →
      (∀ q ∈ pre, lokiSortCompareAt a b q = none) →
      jsStrictEq (getProperty a p.fieldName) (getProperty b p.fieldName) = false →
      lokiSortComparatorFun sortOptions a b =
        .ok ((if jsGt (getProperty a p.fieldName) (getProperty b p.fieldName)
            then (1:Int) else -1) *
          (if p.direction = MangoQuerySortDirection.asc then (1:Int) else -1))) ∧
    (∀ p ∈ sortOptions,
      jsStrictEq (getProperty a p.fieldName) (getProperty b p.fieldName) = false →
      ∃ r, lokiSortComparatorFun sortOptions a b = .ok r ∧ r ≠ 0) := by
  refine ⟨rfl, ?_, ?_⟩
  · intro pre p post hsplit hpre hdiff
    have hp : lokiSortCompareAt a b p =
        some ((if jsGt (getProperty a p.fieldName) (getProperty b p.fieldName)
            then (1:Int) else -1) *
          (if p.direction = MangoQuerySortDirection.asc then (1:Int) else -1)) := by
      simp only [lokiSortCompareAt, hdiff]
      cases hgt : jsGt (getProperty a p.fieldName) (getProperty b p.fieldName) <;> simp [hgt]
    have hv : ((if jsGt (getProperty a p.fieldName) (getProperty b p.fieldName)
          then (1:Int) else -1) *
        (if p.direction = MangoQuerySortDirection.asc then (1:Int) else -1)) ≠ 0 := by
      split <;> split <;> norm_num
    unfold lokiSortComparatorFun
    rw [hsplit, findSome?_append_none _ pre _ hpre, List.findSome?_cons, hp]
    simp only [Option.getD_some]
    rw [if_neg hv]
  · intro p hpmem hdiff
    have hpsome : ∃ v, lokiSortCompareAt a b p = some v := by
      simp only [lokiSortCompareAt, hdiff]
      cases hgt : jsGt (getProperty a p.fieldName) (getProperty b p.fieldName) <;> simp [hgt]
    obtain ⟨v, hv⟩ := hpsome
    obtain ⟨r, hr⟩ := findSome?_isSome_of_mem (lokiSortCompareAt a b) sortOptions p v hpmem hv
    obtain ⟨x, _, hfx⟩ := findSome?_mem_of_eq_some (lokiSortCompareAt a b) sortOptions r hr
    have hrne : r ≠ 0 := by
      rcases lokiSortCompareAt_values a b x r hfx with h1 | h1 <;> rw [h1] <;> norm_num
    refine ⟨r, ?_, hrne⟩
    unfold lokiSortComparatorFun
    rw [hr]
    simp only [Option.getD_some]
    rw [if_neg hrne]

/-- A concrete sort specification: by `age` ascending, ties broken by the
primary key `id` descending. -/
def sampleSortOptions : List MangoQuerySortPart :=
  [{ fieldName := "age", direction := .asc }, { fieldName := "id", direction := .desc }]

/-- A concrete document with id `1`. -/
def sampleDocA : LokiDoc :=
  [("id", JsValue.num 1), ("age", JsValue.num 7)]

/-- A concrete document with id `2` and the same age. -/
def sampleDocB : LokiDoc :=
  [("id", JsValue.num 2), ("age", JsValue.num 7)]

theorem lokiSortComparatorOrdersByFirstDiffWitness :
    jsStrictEq (getProperty sampleDocA "id") (getProperty sampleDocB "id") = false ∧
    lokiSortComparatorFun sampleSortOptions sampleDocA sampleDocB = .ok 1 ∧
    ∃ r, lokiSortComparatorFun sampleSortOptions sampleDocA sampleDocB = .ok r ∧ r ≠ 0 := by
  have h := lokiSortComparatorOrdersByFirstDiff sampleSortOptions sampleDocA sampleDocB
  refine ⟨by decide, ?_, ?_⟩
  · have h2 := h.2.1 [{ fieldName := "age", direction := .asc }]
      { fieldName := "id", direction := .desc } [] rfl (by decide) (by decide)
    rw [h2]
    congr 1
  · exact h.2.2 { fieldName := "id", direction := .desc } (by decide) (by decide)

/-! ### Claim theorems: Dexie query runner -/

theorem dexieCursorLoop_no_stop (pred : DexieDoc → Bool) :
    ∀ (docs rows : List DexieDoc),
      dexieCursorLoop pred none docs rows = rows ++ docs.filter pred := by
  intro docs
  induction docs with
  | nil => intro rows; simp [dexieCursorLoop]
  | cons d rest ih =>
    intro rows
    simp only [dexieCursorLoop]
    cases hp : pred d <;> simp [hp, ih, List.filter_cons]

theorem dexieCursorLoop_stop (pred : DexieDoc → Bool) (n : Nat) :
    ∀ (docs rows : List DexieDoc), rows.length < n →
      dexieCursorLoop pred (some n) docs rows =
        rows ++ (docs.filter pred).take (n - rows.length) := by
  intro docs
  induction docs with
  | nil => intro rows hlen; simp [dexieCursorLoop]
  | cons d rest ih =>
    intro rows hlen
    simp only [dexieCursorLoop]
    cases hp : pred d with
    | true =>
      show (if (some n : Option Nat) = some (rows ++ [d]).length then rows ++ [d]
        else dexieCursorLoop pred (some n) rest (rows ++ [d])) = _
      by_cases hstop : (some n : Option Nat) = some (rows ++ [d]).length
      · rw [if_pos hstop]
        have hn : n = rows.length + 1 := by
          have := Option.some.inj hstop
          simpa using this
        rw [List.filter_cons, if_pos hp, hn]
        have hone : rows.length + 1 - rows.length = 1 := by omega
        rw [hone]
        simp
      · rw [if_neg hstop]
        have hneq : n ≠ rows.length + 1 := by
          intro hh
          apply hstop
          rw [hh]
          simp
        have hlt : (rows ++ [d]).length < n := by
          rw [List.length_append]
          simp only [List.length_singleton]
          omega
        rw [ih (rows ++ [d]) hlt]
        rw [List.filter_cons, if_pos hp]
        have hpos : n - rows.length = (n - (rows ++ [d]).length) + 1 := by
          rw [List.length_append]
          simp only [List.length_singleton]
          omega
        rw [hpos]
        simp [List.take_succ_cons]
    | false =>
      show (if (some n : Option Nat) = some rows.length then rows
        else dexieCursorLoop pred (some n) rest rows) = _
      rw [if_neg (by simp; omega)]
      rw [ih rows hlen]
      rw [List.filter_cons, if_neg (by simp [hp])]

theorem mem_jsSortInsert {α : Type} (cmp : α → α → Int) (x a : α) :
    ∀ (l : List α), a ∈ jsSortInsert cmp x l ↔ a = x ∨ a ∈ l := by
  intro l
  induction l with
  | nil => simp [jsSortInsert]
  | cons y ys ih =>
    simp only [jsSortInsert]
    split
    · simp [List.mem_cons]
    · simp only [List.mem_cons, ih]
      tauto

theorem mem_jsSort {α : Type} (cmp : α → α → Int) (a : α) :
    ∀ (l : List α), a ∈ jsSort cmp l ↔ a ∈ l := by
  intro l
  induction l with
  | nil => simp [jsSort]
  | cons x xs ih =>
    simp only [jsSort]
    rw [mem_jsSortInsert]
    simp [List.mem_cons, ih]

theorem jsSlice_length_le {α : Type} (start l : Nat) (L : List α) :
    (jsSlice start (some (start + l)) L).length ≤ l := by
  simp [jsSlice, List.length_drop, List.length_take]
  omega

theorem mem_jsSlice {α : Type} (start : Nat) (stop : Option Nat) (L : List α) (a : α)
    (h : a ∈ jsSlice start stop L) : a ∈ L := by
  cases stop with
  | none => exact List.mem_of_mem_drop h
  | some e => exact List.mem_of_mem_take (List.mem_of_mem_drop h)

theorem dexieLimit_pos (q : DexiePreparedQuery) (l : Nat) (h : dexieLimit q = some l) :
    0 < l := by
  unfold dexieLimit at h
  cases hq : q.limit with
  | none => rw [hq] at h; cases h
  | some l' =>
    rw [hq] at h
    have h' : (if l' = 0 then (none : Option Nat) else some l') = some l := h
    by_cases hz : l' = 0
    · rw [if_pos hz] at h'; cases h'
    · rw [if_neg hz] at h'
      cases h'
      omega

/-- C10: `dexieQuery` returns exactly the matching non-deleted documents of
the visited index range — in index order when the index order is the sort
order, and otherwise sorted by the sort comparator — with the first `skip`
of them dropped and cut off at the `limit` boundary; in particular no
returned document has its `_deleted` flag set and at most `limit`
documents are returned (with `limit` the local variable of the source,
infinite when the query carries no effective limit). -/
theorem dexieQueryBoundaries (q : DexiePreparedQuery) (cursorDocs : List DexieDoc) :
    dexieQuery q cursorDocs =
      jsSlice (dexieSkip q) (dexieSkipPlusLimit q)
        (if q.sortFieldsSameAsIndexFields then cursorDocs.filter (dexiePushPred q)
          else jsSort q.sortComparator (cursorDocs.filter (dexiePushPred q))) ∧
    (∀ d ∈ dexieQuery q cursorDocs, d.deleted = false) ∧
    (∀ l, dexieLimit q = some l → (dexieQuery q cursorDocs).length ≤ l) := by
  have hmain : dexieQuery q cursorDocs =
      jsSlice (dexieSkip q) (dexieSkipPlusLimit q)
        (if q.sortFieldsSameAsIndexFields then cursorDocs.filter (dexiePushPred q)
          else jsSort q.sortComparator (cursorDocs.filter (dexiePushPred q))) := by
    unfold dexieQuery
    cases hsame : q.sortFieldsSameAsIndexFields with
    | false =>
      show jsSlice (dexieSkip q) (dexieSkipPlusLimit q)
          (jsSort q.sortComparator (dexieCursorLoop (dexiePushPred q) none cursorDocs [])) = _
      rw [dexieCursorLoop_no_stop (dexiePushPred q) cursorDocs []]
      simp
    | true =>
      show jsSlice (dexieSkip q) (dexieSkipPlusLimit q)
          (dexieCursorLoop (dexiePushPred q) (dexieSkipPlusLimit q) cursorDocs []) = _
      cases hspl : dexieSkipPlusLimit q with
      | none =>
        rw [dexieCursorLoop_no_stop (dexiePushPred q) cursorDocs []]
        simp
      | some n =>
        have hl : ∃ l, dexieLimit q = some l ∧ n = dexieSkip q + l := by
          unfold dexieSkipPlusLimit at hspl
          cases hlim : dexieLimit q with
          | none => rw [hlim] at hspl; cases hspl
          | some l =>
            rw [hlim] at hspl
            exact ⟨l, rfl, (Option.some.inj hspl).symm⟩
        obtain ⟨l, hlim, hn⟩ := hl
        have hnpos : 0 < n := by
          have := dexieLimit_pos q l hlim
          omega
        rw [dexieCursorLoop_stop (dexiePushPred q) n cursorDocs [] (by simpa using hnpos)]
        simp [jsSlice, List.take_take]
  refine ⟨hmain, ?_, ?_⟩
  · intro d hd
    rw [hmain] at hd
    have hdm := mem_jsSlice _ _ _ _ hd
    have hdf : d ∈ cursorDocs.filter (dexiePushPred q) := by
      cases hsame : q.sortFieldsSameAsIndexFields with
      | true => rw [hsame] at hdm; simpa using hdm
      | false =>
        rw [hsame] at hdm
        rw [if_neg (by simp)] at hdm
        exact (mem_jsSort q.sortComparator d _).mp hdm
    have hpred := (List.mem_filter.mp hdf).2
    unfold dexiePushPred at hpred
    cases hdel : d.deleted
    · rfl
    · rw [hdel] at hpred; simp at hpred
  · intro l hlim
    rw [hmain]
    have hspl : dexieSkipPlusLimit q = some (dexieSkip q + l) := by
      unfold dexieSkipPlusLimit
      rw [hlim]
      rfl
    rw [hspl]
    apply jsSlice_length_le

/-- A concrete non-deleted document with value 1. -/
def sampleDexieDoc1 : DexieDoc :=
  { deleted := false, data := [("v", JsValue.num 1)] }

/-- A concrete deleted document. -/
def sampleDexieDoc2 : DexieDoc :=
  { deleted := true, data := [("v", JsValue.num 2)] }

/-- A concrete non-deleted document with value 3. -/
def sampleDexieDoc3 : DexieDoc :=
  { deleted := false, data := [("v", JsValue.num 3)] }

/-- A concrete non-deleted document the matcher rejects. -/
def sampleDexieDoc4 : DexieDoc :=
  { deleted := false, data := [("v", JsValue.num 4)] }

/-- The records the cursor visits, in index order. -/
def sampleDexieDocs : List DexieDoc :=
  [sampleDexieDoc1, sampleDexieDoc2, sampleDexieDoc3, sampleDexieDoc4]

/-- A concrete prepared query: skip 1, limit 2, manual matching (value
below 4), index order equal to sort order. -/
def sampleDexieQuery : DexiePreparedQuery :=
  { skip := some 1
    limit := some 2
    selectorSatisfiedByIndex := false
    sortFieldsSameAsIndexFields := true
    matcher := fun d =>
      match d.data.lookup "v" with
      | some (JsValue.num n) => n < 4
      | _ => false
    sortComparator := fun _ _ => 0 }

theorem dexieQueryBoundariesWitness :
    dexieQuery sampleDexieQuery sampleDexieDocs = [sampleDexieDoc3] ∧
    (dexieQuery sampleDexieQuery sampleDexieDocs).length ≤ 2 ∧
    sampleDexieDoc3.deleted = false :=
  ⟨by decide,
    (dexieQueryBoundaries sampleDexieQuery sampleDexieDocs).2.2 2 (by decide),
    (dexieQueryBoundaries sampleDexieQuery sampleDexieDocs).2.1 sampleDexieDoc3 (by decide)⟩
